import Mathlib

/-!
Shallow embedding of the mini-manus tool execution engine
(src/tools/database.py, src/tools/__init__.py, src/agent.py,
src/tools/calculator.py, src/tools/python_executor.py) together with
theorems settling the specification claims about it.

Modelling conventions:
  * Python strings are Lean `String` / `List Char`; `str.lower()` is
    `Char.toLower` (ASCII case mapping, enough for the ASCII keywords the
    filter works with) and `str.strip()` drops whitespace on both ends.
  * Python numbers are `PyNum`: `bool` (a subclass of `int` in Python),
    `int`, and `float` modelled as an exact rational.  All the float
    values the claims touch are exactly representable, and the
    formatting predicates in question (`is_integer`, comparisons with
    1000) are exact on them.
  * Fallible code returns `Except String`; an `.error` is a raised
    exception carrying its message.
  * Stateful methods become explicit state-passing functions; where a
    claim needs to know whether a lower layer was invoked, the embedded
    function additionally returns an instrumentation trace (a `Bool` or
    a list of dispatched tool names) that the source code does not
    return itself.
-/

set_option maxRecDepth 10000

namespace MiniManus

attribute [local semireducible] Rat.add Rat.sub Rat.mul Rat.inv

/-! ## Python string primitives -/

/-- `str.lower()` on a list of characters (ASCII case mapping). -/
def pyLower (s : List Char) : List Char := s.map Char.toLower

/-- `str.strip()`: drop whitespace from both ends. -/
def pyStrip (s : List Char) : List Char :=
  ((s.dropWhile Char.isWhitespace).reverse.dropWhile Char.isWhitespace).reverse

/-- `str.strip()` on a `String`. -/
def pyStripStr (s : String) : String := String.mk (pyStrip s.data)

/-- Does `s` start with the pattern `pat`? (`str.startswith`). -/
def listStarts : List Char → List Char → Bool
  | [], _ => true
  | _ :: _, [] => false
  | p :: ps, c :: cs => p == c && listStarts ps cs

/-- Does `s` contain `pat` as a contiguous substring? (`pat in s`). -/
def containsSub (pat : List Char) : List Char → Bool
  | [] => pat.isEmpty
  | c :: cs => listStarts pat (c :: cs) || containsSub pat cs

/-- A regex `\w` word character: letter, digit or underscore. -/
def isWordChar (c : Char) : Bool := c.isAlphanum || c == '_'

/-- Scan for a word character occurring before the next newline
(the `.*\w` part of the pattern `;.*\w`; `.` does not match `\n`). -/
def wordBeforeNewline : List Char → Bool
  | [] => false
  | c :: rest => if c == '\n' then false else isWordChar c || wordBeforeNewline rest

/-- `re.search(r";.*\w", s)` as a Boolean scan: some `;` is followed,
with no intervening newline, by a word character. -/
def semiThenWord : List Char → Bool
  | [] => false
  | c :: rest => (c == ';' && wordBeforeNewline rest) || semiThenWord rest

/-! ## DatabaseTool (src/tools/database.py) -/

/-- `DatabaseTool.forbidden_keywords` (a Python set; conjunction over
its members is order independent, so a list is a faithful model). -/
def forbidden_keywords : List String :=
  ["insert", "update", "delete", "drop", "create", "alter", "truncate",
   "grant", "revoke", "commit", "rollback", "exec", "execute", "sp_",
   "xp_", "cmdshell", "bulk", "openrowset", "opendatasource"]

/-- `DatabaseTool._is_safe_sql` (src/tools/database.py lines 308-341):
lower-case and strip the query, require a `select` start, reject any
forbidden keyword substring, reject the dangerous patterns `--`, `/*`,
`*/` and `;.*\w`. -/
def is_safe_sql (sql : String) : Bool :=
  let sql_lower := pyStrip (pyLower sql.data)
  listStarts "select".data sql_lower &&
  forbidden_keywords.all (fun kw => !(containsSub kw.data sql_lower)) &&
  !(containsSub "--".data sql_lower) &&
  !(containsSub "/*".data sql_lower) &&
  !(containsSub "*/".data sql_lower) &&
  !(semiThenWord sql_lower)

/-- Connection state of a `DatabaseTool` instance: `current_connection`
(the handle itself is opaque), `current_db_type`, `connection_info`. -/
structure DbState where
  current_connection : Option Nat
  current_db_type : Option String
  connection_info : List (String × String)
deriving Repr, DecidableEq

/-- `DatabaseTool._handle_query` (src/tools/database.py lines 194-217).
`sqlArg` is `kwargs.get('sql', '')`; `driver` stands for the
`_execute_*_query` driver layer.  The second component of the result is
instrumentation: whether the driver layer was invoked. -/
def handle_query (st : DbState) (sqlArg : Option String) (driver : String → String) :
    String × Bool :=
  if st.current_connection.isNone then
    ("❌ 未连接到数据库，请先使用 connect 操作", false)
  else
    let sql := pyStripStr (sqlArg.getD "")
    if !(is_safe_sql sql) then
      ("❌ SQL语句不安全或不被支持，仅允许SELECT查询", false)
    else
      match st.current_db_type with
      | some "sqlite" => (driver sql, true)
      | some "mysql" => (driver sql, true)
      | some "postgresql" => (driver sql, true)
      | some other => ("❌ 不支持的数据库类型: " ++ other, false)
      | none => ("❌ 不支持的数据库类型: None", false)

/-- `DatabaseTool._handle_disconnect` (src/tools/database.py lines
219-235).  `closeResult` models `self.current_connection.close()`,
which can raise; on a raise the connection fields are left untouched
(the assignments follow the `close()` call in the source). -/
def handle_disconnect (st : DbState) (closeResult : Except String Unit) :
    DbState × String :=
  match st.current_connection with
  | none => (st, "ℹ️ 当前没有活动的数据库连接")
  | some _ =>
    match closeResult with
    | .ok _ =>
      ({ current_connection := none, current_db_type := none, connection_info := [] },
       "✅ 数据库连接已断开")
    | .error e => (st, "⚠️ 断开连接时出现警告: " ++ e)

/-! ## PythonExecutor (src/tools/python_executor.py) -/

/-- Configuration of a `PythonExecutor` instance (`__init__`, lines
34-61): `timeout`, `max_output_length`, `allow_imports`. -/
structure PyExecConfig where
  timeout : Nat
  max_output_length : Nat
  allow_imports : Bool
deriving Repr, DecidableEq

/-- The result assembly of `PythonExecutor._execute_exec`
(src/tools/python_executor.py lines 240-272) in the capture branch:
given the captured stdout and stderr contents and the optional last
expression value bound to underscore in the local namespace, build the
returned string.  Note that the source consults no length bound here:
`max_output_length` is never read by `_execute_exec` (nor anywhere else
in the file), so this function faithfully does not take the
configuration as an argument. -/
def execute_exec_result (stdoutContent stderrContent : String)
    (lastExpr : Option String) : String :=
  let parts : List String :=
    (if stdoutContent ≠ "" then ["输出:\n" ++ stdoutContent] else []) ++
    (if stderrContent ≠ "" then ["错误:\n" ++ stderrContent] else []) ++
    (match lastExpr with
     | some r => ["最后表达式结果: " ++ r]
     | none => [])
  if parts.isEmpty then "执行完成，无输出" else String.intercalate "\n" parts

/-! ## ToolCollection (src/tools/__init__.py) -/

/-- An ASCII single quote, used in dispatch messages. -/
def sq : String := String.mk [Char.ofNat 39]

/-- One tool's entry in `ToolCollection._tool_stats`. -/
structure ToolStats where
  calls : Nat
  successes : Nat
  failures : Nat
  total_time : ℚ
deriving Repr, DecidableEq

/-- The fresh statistics record created by `add_tool`. -/
def ToolStats.init : ToolStats := ⟨0, 0, 0, 0⟩

/-- Keyword arguments of a tool call, as a flat key/value mapping. -/
abbrev ToolArgs := List (String × String)

/-- A registered tool as the registry sees it: its `name`,
`validate_args` and `execute` (both may raise, hence `Except`). -/
structure ToolModel where
  name : String
  validateFn : ToolArgs → Except String Bool
  execFn : ToolArgs → Except String String

/-- Python `dict` assignment `d[k] = v` on an association list:
overwrite in place, append if absent. -/
def alistSet {α : Type} : List (String × α) → String → α → List (String × α)
  | [], k, v => [(k, v)]
  | (k₀, v₀) :: rest, k, v =>
    if k₀ = k then (k, v) :: rest else (k₀, v₀) :: alistSet rest k v

/-- Python `dict` lookup `d.get(k)` on an association list. -/
def alistGet? {α : Type} : List (String × α) → String → Option α
  | [], _ => none
  | (k₀, v₀) :: rest, k => if k₀ = k then some v₀ else alistGet? rest k

/-- Python `del d[k]` on an association list. -/
def alistDel {α : Type} : List (String × α) → String → List (String × α)
  | [], _ => []
  | (k₀, v₀) :: rest, k => if k₀ = k then rest else (k₀, v₀) :: alistDel rest k

/-- Update the entry for `k` in place (the entry exists whenever the
tool is registered; `add_tool` creates it and `remove_tool` deletes it
together with the tool). -/
def statsUpd (l : List (String × ToolStats)) (k : String) (f : ToolStats → ToolStats) :
    List (String × ToolStats) :=
  l.map (fun p => if p.1 = k then (p.1, f p.2) else p)

/-- `ToolCollection` state: `_tools` and `_tool_stats`. -/
structure ToolCollection where
  tools : List (String × ToolModel)
  tool_stats : List (String × ToolStats)

/-- `ToolCollection.add_tool` (lines 107-132): register under
`tool.name`, overwriting any existing entry, and reset a fresh
statistics record. -/
def add_tool (c : ToolCollection) (tool : ToolModel) : ToolCollection :=
  { tools := alistSet c.tools tool.name tool,
    tool_stats := alistSet c.tool_stats tool.name ToolStats.init }

/-- `ToolCollection.remove_tool` (lines 134-151). -/
def remove_tool (c : ToolCollection) (tool_name : String) : ToolCollection × Bool :=
  if (alistGet? c.tools tool_name).isSome then
    ({ tools := alistDel c.tools tool_name,
       tool_stats := alistDel c.tool_stats tool_name }, true)
  else (c, false)

/-- `ToolCollection.execute_tool` (src/tools/__init__.py lines
187-235).  `elapsed` is the wall-clock time the execution attempt took
(external input).  Control flow: unknown name returns a not-found
result without touching any state; otherwise `calls` is incremented,
then `validate_args` runs inside the `try` (a `False` counts a failure
without accumulating time, a raise is caught as a failure with time),
then `execute` runs (success or caught raise, both accumulate time). -/
def execute_tool (c : ToolCollection) (tool_name : String) (args : ToolArgs)
    (elapsed : ℚ) : ToolCollection × String :=
  match alistGet? c.tools tool_name with
  | none => (c, "❌ 未找到工具: " ++ tool_name)
  | some tool =>
    let bumpCalls : ToolStats → ToolStats := fun s => { s with calls := s.calls + 1 }
    let failTimed : ToolStats → ToolStats := fun s =>
      { s with failures := s.failures + 1, total_time := s.total_time + elapsed }
    let failPlain : ToolStats → ToolStats := fun s => { s with failures := s.failures + 1 }
    let okTimed : ToolStats → ToolStats := fun s =>
      { s with successes := s.successes + 1, total_time := s.total_time + elapsed }
    let st₁ := statsUpd c.tool_stats tool_name bumpCalls
    match tool.validateFn args with
    | .error e =>
      ({ c with tool_stats := statsUpd st₁ tool_name failTimed },
       "❌ 工具 " ++ sq ++ tool_name ++ sq ++ " 执行失败: " ++ e)
    | .ok false =>
      ({ c with tool_stats := statsUpd st₁ tool_name failPlain },
       "❌ 工具 " ++ sq ++ tool_name ++ sq ++ " 参数验证失败")
    | .ok true =>
      match tool.execFn args with
      | .ok result =>
        ({ c with tool_stats := statsUpd st₁ tool_name okTimed }, result)
      | .error e =>
        ({ c with tool_stats := statsUpd st₁ tool_name failTimed },
         "❌ 工具 " ++ sq ++ tool_name ++ sq ++ " 执行失败: " ++ e)

/-- One dispatch request: tool name, arguments, elapsed time taken. -/
structure DispatchReq where
  tool_name : String
  args : ToolArgs
  elapsed : ℚ

/-- A sequence of dispatches through `execute_tool`. -/
def dispatchSeq (c : ToolCollection) : List DispatchReq → ToolCollection
  | [] => c
  | r :: rest => dispatchSeq (execute_tool c r.tool_name r.args r.elapsed).1 rest

/-- The statistics invariant of the claim: every recorded statistics
entry satisfies `calls = successes + failures`. -/
def StatsInv (c : ToolCollection) : Prop :=
  ∀ p ∈ c.tool_stats, p.2.calls = p.2.successes + p.2.failures

/-! ## BaseAgent plan execution (src/agent.py) -/

/-- A plan step as `_execute_step` reads it: `step.get("tool")` (absent
or `None` modelled as `none`; the empty string is falsy in Python and
is treated as missing by the `if not tool_name` test) and
`step.get("args", {})`. -/
structure PlanStep where
  description : String
  tool : Option String
  args : ToolArgs

/-- `BaseAgent._execute_step` (src/agent.py lines 163-192): resolve the
tool by name in the collection, call its `execute`, catching any raise.
The second component is instrumentation: the names of tools whose
`execute` was invoked (empty when no tool was dispatched). -/
def execute_step (tools : List (String × ToolModel)) (step : PlanStep) :
    String × List String :=
  match step.tool with
  | none => ("❌ 步骤缺少工具名称", [])
  | some tool_name =>
    if tool_name = "" then ("❌ 步骤缺少工具名称", [])
    else
      match alistGet? tools tool_name with
      | none => ("❌ 未找到工具: " ++ tool_name, [])
      | some tool =>
        match tool.execFn step.args with
        | .ok result => ("✅ " ++ tool_name ++ ": " ++ result, [tool_name])
        | .error e => ("❌ " ++ tool_name ++ " 执行失败: " ++ e, [tool_name])

/-- The loop body of `BaseAgent._execute_plan` (src/agent.py lines
122-161): `cur` is `self.current_step`, `max_steps` the configured
budget, `idx` the 0-based position in the plan (the printed line uses
`idx+1`).  Returns the final `current_step`, the transcript lines
(`results`), and the instrumentation trace of dispatched tool names. -/
def execute_plan_from (tools : List (String × ToolModel)) (max_steps : Nat) :
    Nat → Nat → List PlanStep → Nat × List String × List String
  | cur, _, [] => (cur, [], [])
  | cur, idx, step :: rest =>
    if max_steps ≤ cur then (cur, ["⚠️ 达到最大执行步数限制"], [])
    else
      let sr := execute_step tools step
      let line := "步骤" ++ toString (idx + 1) ++ ": " ++ sr.1
      let r := execute_plan_from tools max_steps (cur + 1) (idx + 1) rest
      (r.1, line :: r.2.1, sr.2 ++ r.2.2)

/-- `BaseAgent._execute_plan` proper: run the loop from the agent's
current step counter and join the transcript with newlines. -/
def execute_plan (tools : List (String × ToolModel)) (max_steps cur : Nat)
    (steps : List PlanStep) : Nat × String × List String :=
  let r := execute_plan_from tools max_steps cur 0 steps
  (r.1, String.intercalate "\n" r.2.1, r.2.2)

/-! ## Calculator (src/tools/calculator.py)

Python numbers are modelled by `PyNum`: `bool` is a subclass of `int`
in Python (`isinstance(True, int)` holds), and a `float` is modelled as
the exact rational it denotes.  `float.is_integer`, `int(float)` and
order comparisons are exact on this model. -/

/-- A Python number as the calculator evaluator produces it. -/
inductive PyNum where
  | boolV (b : Bool)
  | intV (n : Int)
  | floatV (q : ℚ)
deriving Repr, DecidableEq

/-- `isinstance(x, int)`: true for `bool` and `int` (Python's `bool`
is a subclass of `int`). -/
def PyNum.isInstInt : PyNum → Bool
  | .boolV _ => true
  | .intV _ => true
  | .floatV _ => false

/-- `isinstance(x, float)`. -/
def PyNum.isInstFloat : PyNum → Bool
  | .floatV _ => true
  | _ => false

/-- `isinstance(x, bool)`. -/
def PyNum.isInstBool : PyNum → Bool
  | .boolV _ => true
  | _ => false

/-- The numeric value of a `PyNum`, as an exact rational. -/
def PyNum.toQ : PyNum → ℚ
  | .boolV b => if b then 1 else 0
  | .intV n => (n : ℚ)
  | .floatV q => q

/-- `int(x)`: truncation toward zero (exact on the integral floats the
formatting branch applies it to). -/
def PyNum.toInt : PyNum → Int
  | .boolV b => if b then 1 else 0
  | .intV n => n
  | .floatV q => Int.tdiv q.num (q.den : Int)

/-- `float.is_integer()` on the exact rational value. -/
def float_is_integer (q : ℚ) : Bool := q.den == 1

/-- Little-endian decimal digits of `n` (fuel-driven so that every
definition stays structurally recursive and kernel-evaluable). -/
def natDigsAux : Nat → Nat → List Nat
  | 0, _ => []
  | fuel + 1, n => if n = 0 then [] else n % 10 :: natDigsAux fuel (n / 10)

/-- Little-endian decimal digits of `n` (empty for 0). -/
def natDigs (n : Nat) : List Nat := natDigsAux n n

/-- The character of a decimal digit. -/
def digitChar (d : Nat) : Char := Char.ofNat (48 + d)

/-- Decimal rendering of a natural number (`str(n)`). -/
def natRepr (n : Nat) : String :=
  if n = 0 then "0" else String.mk (((natDigs n).reverse).map digitChar)

/-- Decimal rendering of an integer (`str(n)` for `int`). -/
def intRepr (n : Int) : String :=
  if n < 0 then "-" ++ natRepr n.natAbs else natRepr n.natAbs

/-- Zero-pad the decimal rendering of `n` to `width` characters. -/
def padN (width n : Nat) : String :=
  String.mk (List.replicate (width - (natRepr n).length) '0') ++ natRepr n

/-- Round to the nearest integer, ties to even (the rounding Python
uses when formatting floats). -/
def roundHalfEven (x : ℚ) : Int :=
  let f := Rat.floor x
  let frac := x - (f : ℚ)
  if frac < 1 / 2 then f
  else if 1 / 2 < frac then f + 1
  else if f % 2 = 0 then f else f + 1

/-- Fuel-driven search for the smallest `k ≥ start` with `a * 10^k ≥ 1`
(used for the decimal exponent of a value below 1). -/
def negExpAux : Nat → ℚ → Nat → Nat
  | 0, _, k => k
  | fuel + 1, a, k => if 1 ≤ a * 10 ^ k then k else negExpAux fuel a (k + 1)

/-- Decimal exponent of a positive rational: the `e` with
`10^e ≤ a < 10^(e+1)` (within the fuel bound). -/
def qExpPos (a : ℚ) : Int :=
  if 1 ≤ a then ((natDigs (Rat.floor a).toNat).length : Int) - 1
  else -(negExpAux ((natDigs a.den).length + 1) a 1 : Int)

/-- Model of the Python format `f"{x:.2e}"`: sign, one leading digit,
two rounded decimals, `e`, exponent sign, at-least-two-digit
exponent. -/
def formatSci (x : ℚ) : String :=
  if x = 0 then "0.00e+00"
  else
    let sgn := if x < 0 then "-" else ""
    let a := |x|
    let e₀ := qExpPos a
    let m₀ := roundHalfEven (a * (10 : ℚ) ^ (2 - e₀))
    let m := if 1000 ≤ m₀ then roundHalfEven ((m₀ : ℚ) / 10) else m₀
    let e := if 1000 ≤ m₀ then e₀ + 1 else e₀
    let mAbs := m.toNat
    let expSgn := if e < 0 then "-" else "+"
    let eStr := if e.natAbs < 10 then "0" ++ natRepr e.natAbs else natRepr e.natAbs
    sgn ++ natRepr (mAbs / 100) ++ "." ++ padN 2 (mAbs % 100) ++ ("e" ++ (expSgn ++ eStr))

/-- Strip trailing zeros, and then a trailing decimal point, from a
fixed-point rendering (the `%g` trailing-zero rule). -/
def stripTrailingZeros (s : String) : String :=
  let l := s.data.reverse.dropWhile (fun c => c == '0')
  let l := if l.headD ' ' == '.' then l.tail else l
  String.mk l.reverse

/-- Model of the Python format `f"{x:.6g}"`: 6 significant digits,
fixed-point for decimal exponents in `[-4, 5]`, exponential otherwise,
trailing zeros stripped. -/
def formatG6 (x : ℚ) : String :=
  if x = 0 then "0"
  else
    let sgn := if x < 0 then "-" else ""
    let a := |x|
    let e₀ := qExpPos a
    let m₀ := roundHalfEven (a * (10 : ℚ) ^ (5 - e₀))
    let m := (if 1000000 ≤ m₀ then roundHalfEven ((m₀ : ℚ) / 10) else m₀).toNat
    let e := if 1000000 ≤ m₀ then e₀ + 1 else e₀
    if e < -4 ∨ 6 ≤ e then
      let mant := stripTrailingZeros (natRepr (m / 100000) ++ "." ++ padN 5 (m % 100000))
      let expSgn := if e < 0 then "-" else "+"
      let eStr := if e.natAbs < 10 then "0" ++ natRepr e.natAbs else natRepr e.natAbs
      sgn ++ mant ++ ("e" ++ expSgn ++ eStr)
    else if 0 ≤ e then
      let decimals := (5 - e).toNat
      let ip := m / 10 ^ decimals
      let fp := m % 10 ^ decimals
      if fp = 0 then sgn ++ natRepr ip
      else sgn ++ stripTrailingZeros (natRepr ip ++ "." ++ padN decimals fp)
    else
      sgn ++ stripTrailingZeros ("0." ++ String.mk (List.replicate (e.natAbs - 1) '0') ++ padN 6 m)

/-- Model of the Python format `f"{x:.pf}"`. -/
def formatFixed (x : ℚ) (p : Nat) : String :=
  let sgn := if x < 0 then "-" else ""
  let m := (roundHalfEven (|x| * 10 ^ p)).toNat
  if p = 0 then sgn ++ natRepr m
  else sgn ++ natRepr (m / 10 ^ p) ++ "." ++ padN p (m % 10 ^ p)

/-- `Calculator._format_result` (src/tools/calculator.py lines
272-305).  The branch order is the source's: the integral check
(`isinstance(result, int)` — which includes `bool` — or an integral
float) comes first, then the float branch with its precision /
magnitude cases (the two `%.6g` branches of the source are mirrored),
then the `bool` branch, then `str(result)`. -/
def format_result (result : PyNum) (precision : Option Nat) : String :=
  if result.isInstInt || (result.isInstFloat && float_is_integer result.toQ) then
    intRepr result.toInt
  else if result.isInstFloat then
    match precision with
    | some p => formatFixed result.toQ p
    | none =>
      if 1000 ≤ |result.toQ| then formatSci result.toQ
      else if 1 ≤ |result.toQ| then formatG6 result.toQ
      else formatG6 result.toQ
  else if result.isInstBool then
    (if result = .boolV true then "True" else "False")
  else ""

/-- The result line built by `Calculator.execute` (line 122). -/
def calc_render (expression formatted : String) : String :=
  "计算结果: " ++ expression ++ " = " ++ formatted

/-- AST binary operators supported by `Calculator.operators`. -/
inductive BinOpKind where
  | add | sub | mult | div | floordiv | mod | pow
deriving Repr, DecidableEq

/-- AST unary operators supported by `Calculator.operators`. -/
inductive UnOpKind where
  | uadd | usub
deriving Repr, DecidableEq

/-- AST comparison operators handled by the `ast.Compare` branch. -/
inductive CmpOpKind where
  | lt | le | gt | ge | eq | ne
deriving Repr, DecidableEq

/-- The expression AST `Calculator._eval_node` walks (the node kinds of
its closed switch). -/
inductive PyExpr where
  | const (v : PyNum)
  | name (id : String)
  | binOp (op : BinOpKind) (l r : PyExpr)
  | unaryOp (op : UnOpKind) (e : PyExpr)
  | call (fn : String) (args : List PyExpr)
  | compare (l : PyExpr) (cmps : List (CmpOpKind × PyExpr))

/-- A value flowing through `_eval_node`: a number, or an entry of
`self.functions` used as a value (a function object). -/
inductive PyVal where
  | num (v : PyNum)
  | func (fn : String)
deriving Repr, DecidableEq

/-- The keys of `Calculator.functions`. -/
def calcFunctionNames : List String :=
  ["abs", "round", "max", "min", "sum", "sqrt", "sin", "cos", "tan",
   "log", "log10", "exp", "ceil", "floor", "pi", "e"]

/-- Binary arithmetic with Python's result-kind rule: `float` if either
operand is a `float`, otherwise `int` (`bool` coerces to `int`). -/
def arith2 (f : ℚ → ℚ → ℚ) (g : Int → Int → Int) (a b : PyNum) : PyNum :=
  if a.isInstFloat || b.isInstFloat then .floatV (f a.toQ b.toQ)
  else .intV (g a.toInt b.toInt)

/-- Python `**`.  Results that are irrational (a non-integral exponent)
are outside the rational float model. -/
def powEval (a b : PyNum) : Except String PyNum :=
  if b.isInstFloat then
    if float_is_integer b.toQ then
      if a.toQ = 0 ∧ b.toQ.num < 0 then .error "0 cannot be raised to a negative power"
      else .ok (.floatV (a.toQ ^ b.toQ.num))
    else .error "irrational power outside the rational model"
  else
    let n := b.toInt
    if a.isInstFloat then
      if a.toQ = 0 ∧ n < 0 then .error "0 cannot be raised to a negative power"
      else .ok (.floatV (a.toQ ^ n))
    else if n < 0 then
      if a.toQ = 0 then .error "0 cannot be raised to a negative power"
      else .ok (.floatV (a.toQ ^ n))
    else .ok (.intV (a.toInt ^ n.toNat))

/-- The `ast.BinOp` operator table (`operator.add` … `operator.pow`).
`/` is true division (always `float`), `//` and `%` floor toward
negative infinity as in Python. -/
def binOpEval : BinOpKind → PyNum → PyNum → Except String PyNum
  | .add, a, b => .ok (arith2 (· + ·) (· + ·) a b)
  | .sub, a, b => .ok (arith2 (· - ·) (· - ·) a b)
  | .mult, a, b => .ok (arith2 (· * ·) (· * ·) a b)
  | .div, a, b =>
    if b.toQ = 0 then .error "division by zero"
    else .ok (.floatV (a.toQ / b.toQ))
  | .floordiv, a, b =>
    if b.toQ = 0 then .error "division by zero"
    else if a.isInstFloat || b.isInstFloat then
      .ok (.floatV ((Rat.floor (a.toQ / b.toQ) : Int) : ℚ))
    else .ok (.intV (Int.fdiv a.toInt b.toInt))
  | .mod, a, b =>
    if b.toQ = 0 then .error "division by zero"
    else if a.isInstFloat || b.isInstFloat then
      .ok (.floatV (a.toQ - b.toQ * ((Rat.floor (a.toQ / b.toQ) : Int) : ℚ)))
    else .ok (.intV (Int.fmod a.toInt b.toInt))
  | .pow, a, b => powEval a b

/-- The `ast.UnaryOp` table: `operator.pos` / `operator.neg` (both
return `int` on a `bool` operand). -/
def unaryOpEval : UnOpKind → PyNum → PyNum
  | .uadd, a => if a.isInstFloat then .floatV a.toQ else .intV a.toInt
  | .usub, a => if a.isInstFloat then .floatV (-a.toQ) else .intV (-a.toInt)

/-- One comparison link of the `ast.Compare` branch, on the exact
numeric values (Python compares `bool`/`int`/`float` numerically). -/
def cmpEval (op : CmpOpKind) (a b : PyNum) : Bool :=
  match op with
  | .lt => decide (a.toQ < b.toQ)
  | .le => decide (a.toQ ≤ b.toQ)
  | .gt => decide (b.toQ < a.toQ)
  | .ge => decide (b.toQ ≤ a.toQ)
  | .eq => decide (a.toQ = b.toQ)
  | .ne => decide (¬ a.toQ = b.toQ)

/-- `ast.Name` lookup in `self.functions`: `pi`/`e` are irrational
float constants (outside the rational model), other known keys give the
function object, unknown names raise `NameError`. -/
def lookupCalcName (id : String) : Except String PyVal :=
  if id = "pi" ∨ id = "e" then .error "irrational constant outside the rational model"
  else if calcFunctionNames.contains id then .ok (.func id)
  else .error ("未知变量: " ++ id)

/-- Fuel-driven search for an exact natural square root. -/
def sqrtExactAux : Nat → Nat → Nat → Option Nat
  | 0, _, _ => none
  | fuel + 1, k, n =>
    if k * k = n then some k
    else if n < k * k then none
    else sqrtExactAux fuel (k + 1) n

/-- The exact square root of `n`, when `n` is a perfect square. -/
def natSqrtExact (n : Nat) : Option Nat := sqrtExactAux (n + 2) 0 n

/-- `math.sqrt` on the exact value: defined (as the exact float) when
the argument is a perfect square of a rational; negative arguments
raise the domain error; other arguments are outside the model. -/
def ratSqrt (q : ℚ) : Except String PyNum :=
  if q < 0 then .error "math domain error"
  else
    match natSqrtExact q.num.toNat, natSqrtExact q.den with
    | some sn, some sd => .ok (.floatV (Rat.divInt (sn : Int) (sd : Int)))
    | _, _ => .error "irrational square root outside the rational model"

/-- `max`: largest argument, first one on ties (Python keeps the first
maximal object). -/
def maxFold (a : PyNum) : List PyNum → PyNum
  | [] => a
  | b :: rest => maxFold (if a.toQ < b.toQ then b else a) rest

/-- `min`: smallest argument, first one on ties. -/
def minFold (a : PyNum) : List PyNum → PyNum
  | [] => a
  | b :: rest => minFold (if b.toQ < a.toQ then b else a) rest

/-- Application of an allow-listed function in the `ast.Call` branch.
Transcendental functions produce irrational values and are outside the
rational model; `pi`/`e` are not callable. -/
def applyCalcFunc (fn : String) (args : List PyNum) : Except String PyNum :=
  match fn, args with
  | "sqrt", [a] => ratSqrt a.toQ
  | "abs", [a] =>
    if a.isInstFloat then .ok (.floatV |a.toQ|) else .ok (.intV (a.toInt.natAbs : Int))
  | "floor", [a] => .ok (.intV (Rat.floor a.toQ))
  | "ceil", [a] => .ok (.intV (Rat.ceil a.toQ))
  | "round", [a] =>
    if a.isInstFloat then .ok (.intV (roundHalfEven a.toQ)) else .ok (.intV a.toInt)
  | "max", a :: b :: rest => .ok (maxFold a (b :: rest))
  | "min", a :: b :: rest => .ok (minFold a (b :: rest))
  | _, _ => .error ("call outside the model: " ++ fn)

/-- The comparison loop of the `ast.Compare` branch: evaluate each
comparator, short-circuit to `False` on the first failing link,
carrying the right operand leftward; an exhausted chain is `True`. -/
def compareChain (evalF : PyExpr → Except String PyVal) :
    PyVal → List (CmpOpKind × PyExpr) → Except String PyVal
  | _, [] => .ok (.num (.boolV true))
  | lv, (op, ce) :: rest => do
    let rv ← evalF ce
    match lv, rv with
    | .num a, .num b =>
      if cmpEval op a b then compareChain evalF (.num b) rest
      else .ok (.num (.boolV false))
    | _, _ => .error "comparison on a function object outside the model"

/-- Left-to-right evaluation of a call's argument list (the list
comprehension `[self._eval_node(arg) for arg in node.args]`), raising
on the first failing argument. -/
def evalArgs (evalF : PyExpr → Except String PyVal) :
    List PyExpr → Except String (List PyVal)
  | [] => .ok []
  | a :: rest => do
    let v ← evalF a
    let vs ← evalArgs evalF rest
    pure (v :: vs)

/-- Coerce evaluated arguments to numbers; a function object among the
arguments makes the allow-listed numeric call raise. -/
def numsOf : List PyVal → Except String (List PyNum)
  | [] => .ok []
  | .num n :: rest => do
    let ns ← numsOf rest
    pure (n :: ns)
  | .func _ :: _ => .error "argument is a function object"

/-- `Calculator._eval_node` (src/tools/calculator.py lines 191-270):
structural recursion over the closed node-kind switch, fuel-driven so
the definition is kernel-evaluable.  Any node kind outside the switch
does not exist in this AST; unknown names and functions raise. -/
def eval_node : Nat → PyExpr → Except String PyVal
  | 0, _ => .error "evaluation fuel exhausted"
  | fuel + 1, e =>
    match e with
    | .const v => .ok (.num v)
    | .name id => lookupCalcName id
    | .binOp op l r => do
      let lv ← eval_node fuel l
      let rv ← eval_node fuel r
      match lv, rv with
      | .num a, .num b => do
        let c ← binOpEval op a b
        pure (.num c)
      | _, _ => .error "operand is a function object"
    | .unaryOp op x => do
      let v ← eval_node fuel x
      match v with
      | .num a => .ok (.num (unaryOpEval op a))
      | _ => .error "operand is a function object"
    | .call fn args =>
      if calcFunctionNames.contains fn then do
        let vs ← evalArgs (eval_node fuel) args
        let ns ← numsOf vs
        let r ← applyCalcFunc fn ns
        pure (.num r)
      else .error ("未知函数: " ++ fn)
    | .compare l cmps => do
      let lv ← eval_node fuel l
      compareChain (eval_node fuel) lv cmps
  termination_by structural fuel => fuel

/-- The AST of `"sqrt(16) + 2"` (as `ast.parse` produces it, after a
no-op preprocessing pass). -/
def sqrt16plus2 : PyExpr :=
  .binOp .add (.call "sqrt" [.const (.intV 16)]) (.const (.intV 2))

/-- The AST of `"1 < 2"`. -/
def oneLtTwo : PyExpr :=
  .compare (.const (.intV 1)) [(.lt, .const (.intV 2))]

/-! ## Specification-side predicates for the safety-filter claim

These follow the claim's wording (not the source), to be compared with
`is_safe_sql`.  `claim_safe_sql` is the claim as stated: its last
clause bans a semicolon followed by any further non-blank content.
`amended_safe_sql` is the amended claim: the last clause bans a
semicolon followed, with no intervening newline, by a word
character — which is what the source pattern `;.*\w` matches. -/

/-- The claim's "begins with": a prefix decomposition. -/
def SpecStarts (pat s : List Char) : Prop := ∃ t, s = pat ++ t

/-- The claim's "contains": a substring decomposition. -/
def SpecContains (pat s : List Char) : Prop := ∃ u v, s = u ++ pat ++ v

/-- The query-safety claim exactly as stated (clause (iii):
no semicolon followed by further non-blank content). -/
def claim_safe_sql (sql : String) : Prop :=
  let l := pyStrip (pyLower sql.data)
  SpecStarts "select".data l ∧
  (∀ kw ∈ forbidden_keywords, ¬ SpecContains kw.data l) ∧
  ¬ SpecContains "--".data l ∧
  ¬ SpecContains "/*".data l ∧
  ¬ SpecContains "*/".data l ∧
  ¬ (∃ u v, l = u ++ ';' :: v ∧ ∃ c ∈ v, ¬ c.isWhitespace = true)

/-- The amended query-safety claim (clause (iii): no semicolon
followed, on the same line, by a word character). -/
def amended_safe_sql (sql : String) : Prop :=
  let l := pyStrip (pyLower sql.data)
  SpecStarts "select".data l ∧
  (∀ kw ∈ forbidden_keywords, ¬ SpecContains kw.data l) ∧
  ¬ SpecContains "--".data l ∧
  ¬ SpecContains "/*".data l ∧
  ¬ SpecContains "*/".data l ∧
  ¬ (∃ u mid c v, l = u ++ ';' :: (mid ++ c :: v) ∧
       (∀ x ∈ mid, x ≠ '\n') ∧ isWordChar c = true)

/-! # Theorems -/

/-! ## String-scan lemmas -/

theorem listStarts_iff (pat s : List Char) :
    listStarts pat s = true ↔ SpecStarts pat s := by
  induction pat generalizing s with
  | nil => simp [listStarts, SpecStarts]
  | cons p ps ih =>
    cases s with
    | nil =>
      simp only [listStarts, SpecStarts]
      constructor
      · intro h; cases h
      · rintro ⟨t, ht⟩; cases ht
    | cons c cs =>
      simp only [listStarts, SpecStarts, Bool.and_eq_true, beq_iff_eq]
      rw [ih]
      constructor
      · rintro ⟨rfl, t, rfl⟩; exact ⟨t, rfl⟩
      · rintro ⟨t, ht⟩
        injection ht with h₁ h₂
        exact ⟨h₁.symm, t, h₂⟩

theorem containsSub_iff (pat s : List Char) :
    containsSub pat s = true ↔ SpecContains pat s := by
  induction s with
  | nil =>
    simp only [containsSub, SpecContains, List.isEmpty_iff]
    constructor
    · rintro rfl; exact ⟨[], [], rfl⟩
    · rintro ⟨u, v, huv⟩
      rcases List.append_eq_nil.mp huv.symm with ⟨h₁, h₂⟩
      exact (List.append_eq_nil.mp h₁).2
  | cons c cs ih =>
    simp only [containsSub, Bool.or_eq_true]
    rw [listStarts_iff, ih]
    constructor
    · rintro (⟨t, ht⟩ | ⟨u, v, huv⟩)
      · exact ⟨[], t, by simp [ht]⟩
      · exact ⟨c :: u, v, by simp [huv]⟩
    · rintro ⟨u, v, huv⟩
      cases u with
      | nil => exact Or.inl ⟨v, by simpa using huv⟩
      | cons x xs =>
        injection huv with h₁ h₂
        exact Or.inr ⟨xs, v, h₂⟩

theorem wordBeforeNewline_iff (s : List Char) :
    wordBeforeNewline s = true ↔
      ∃ mid c v, s = mid ++ c :: v ∧ (∀ x ∈ mid, x ≠ '\n') ∧ isWordChar c = true := by
  induction s with
  | nil =>
    simp only [wordBeforeNewline]
    constructor
    · intro h; cases h
    · rintro ⟨mid, c, v, h, -, -⟩
      cases mid <;> cases h
  | cons x xs ih =>
    simp only [wordBeforeNewline]
    by_cases hx : x = '\n'
    · subst hx
      simp only [beq_self_eq_true, if_true]
      constructor
      · intro h; cases h
      · rintro ⟨mid, c, v, h, hmid, hc⟩
        cases mid with
        | nil =>
          injection h with h₁ h₂
          subst h₁
          exact absurd hc (by decide)
        | cons y ys =>
          injection h with h₁ h₂
          exact absurd h₁.symm (hmid y (by simp))
    · rw [if_neg (by simpa using hx)]
      simp only [Bool.or_eq_true]
      rw [ih]
      constructor
      · rintro (hw | ⟨mid, c, v, h, hmid, hc⟩)
        · exact ⟨[], x, xs, rfl, by simp, hw⟩
        · refine ⟨x :: mid, c, v, by simp [h], ?_, hc⟩
          intro y hy
          rcases List.mem_cons.mp hy with rfl | hy
          · exact hx
          · exact hmid y hy
      · rintro ⟨mid, c, v, h, hmid, hc⟩
        cases mid with
        | nil =>
          injection h with h₁ h₂
          subst h₁
          exact Or.inl hc
        | cons y ys =>
          injection h with h₁ h₂
          subst h₁
          exact Or.inr ⟨ys, c, v, h₂, fun z hz => hmid z (by simp [hz]), hc⟩

theorem semiThenWord_iff (s : List Char) :
    semiThenWord s = true ↔
      ∃ u mid c v, s = u ++ ';' :: (mid ++ c :: v) ∧
        (∀ x ∈ mid, x ≠ '\n') ∧ isWordChar c = true := by
  induction s with
  | nil =>
    simp only [semiThenWord]
    constructor
    · intro h; cases h
    · rintro ⟨u, mid, c, v, h, -, -⟩
      cases u <;> cases h
  | cons x xs ih =>
    simp only [semiThenWord, Bool.or_eq_true, Bool.and_eq_true, beq_iff_eq]
    rw [wordBeforeNewline_iff, ih]
    constructor
    · rintro (⟨rfl, mid, c, v, h, hmid, hc⟩ | ⟨u, mid, c, v, h, hmid, hc⟩)
      · exact ⟨[], mid, c, v, by simp [h], hmid, hc⟩
      · exact ⟨x :: u, mid, c, v, by simp [h], hmid, hc⟩
    · rintro ⟨u, mid, c, v, h, hmid, hc⟩
      cases u with
      | nil =>
        injection h with h₁ h₂
        exact Or.inl ⟨h₁, mid, c, v, h₂, hmid, hc⟩
      | cons y ys =>
        injection h with h₁ h₂
        exact Or.inr ⟨ys, mid, c, v, h₂, hmid, hc⟩

/-! ## C1: the query-safety filter -/

/-- C1 (counterexample): the filter as claimed rejects any semicolon
followed by further non-blank content, but the code's pattern `;.*\w`
only fires on a word character: `"select 1;)"` is accepted by
`_is_safe_sql` while the claim as stated classifies it as rejected. -/
theorem C1_cex :
    is_safe_sql "select 1;)" = true ∧ ¬ claim_safe_sql "select 1;)" := by
  constructor
  · decide
  · intro h
    exact h.2.2.2.2.2 ⟨"select 1".data, [')'], by decide, ')', by decide, by decide⟩

/-- C1 (amended): the filter accepts a SQL string iff its trimmed,
case-folded form begins with `select`, contains no forbidden keyword
and no comment marker, and contains no semicolon followed — with no
intervening newline — by a word character (letter, digit or
underscore). -/
theorem C1_amended_iff (sql : String) :
    is_safe_sql sql = true ↔ amended_safe_sql sql := by
  have hsemi := semiThenWord_iff (pyStrip (pyLower sql.data))
  have hstart := listStarts_iff "select".data (pyStrip (pyLower sql.data))
  simp only [is_safe_sql, amended_safe_sql, Bool.and_eq_true, List.all_eq_true,
    Bool.not_eq_true']
  rw [hstart]
  constructor
  · rintro ⟨⟨⟨⟨⟨h1, h2⟩, h3⟩, h4⟩, h5⟩, h6⟩
    refine ⟨h1, ?_, ?_, ?_, ?_, ?_⟩
    · intro kw hkw
      rw [← containsSub_iff]
      simp [h2 kw hkw]
    · rw [← containsSub_iff]; simp [h3]
    · rw [← containsSub_iff]; simp [h4]
    · rw [← containsSub_iff]; simp [h5]
    · rw [← hsemi]; simp [h6]
  · rintro ⟨h1, h2, h3, h4, h5, h6⟩
    refine ⟨⟨⟨⟨⟨h1, ?_⟩, ?_⟩, ?_⟩, ?_⟩, ?_⟩
    · intro kw hkw
      have h := h2 kw hkw
      rw [← containsSub_iff] at h
      exact Bool.eq_false_iff.mpr h
    · rw [← containsSub_iff] at h3; exact Bool.eq_false_iff.mpr h3
    · rw [← containsSub_iff] at h4; exact Bool.eq_false_iff.mpr h4
    · rw [← containsSub_iff] at h5; exact Bool.eq_false_iff.mpr h5
    · rw [← hsemi] at h6; exact Bool.eq_false_iff.mpr h6

/-- C1 (witness): the amended characterization applied at the accepted
query `"select 1"`. -/
theorem C1_wit : amended_safe_sql "select 1" :=
  (C1_amended_iff "select 1").mp (by decide)

/-! ## C4: sandboxed output bounding -/

/-- C4 (code bug): `_execute_exec` returns the captured stdout in full,
whatever the configured `max_output_length` is — the configuration
field (here set to 5) is never consulted by the result assembly, no
stream is cut and no truncation is marked.  The tool's own help text
("输出过长会被截断") and the `max_output_length` comment promise the
truncation the claim states. -/
theorem C4_no_truncation :
    (∀ out : String, out ≠ "" → execute_exec_result out "" none = "输出:\n" ++ out) ∧
    (PyExecConfig.mk 30 5 true).max_output_length = 5 := by
  constructor
  · intro out h
    simp [execute_exec_result, h, String.intercalate, String.intercalate.go]
  · rfl

/-- C4 (witness): the failing input — with `max_output_length = 5`, an
11-character stdout is returned whole. -/
theorem C4_wit :
    execute_exec_result "abcdefghij\n" "" none = "输出:\nabcdefghij\n" ∧
    ("abcdefghij\n".length = 11 ∧ 5 < 11) :=
  ⟨C4_no_truncation.1 "abcdefghij\n" (by decide), by decide, by decide⟩

/-! ## C5: rejection of `DROP TABLE users` -/

/-- C5 (counterexample): the rejection result for `"DROP TABLE users"`
is the fixed string `"❌ SQL语句不安全或不被支持，仅允许SELECT查询"`,
which does not mention the keyword `drop` that caused the rejection
(`_is_safe_sql` returns only a Boolean, so `_handle_query` cannot name
the keyword). -/
theorem C5_cex :
    handle_query ⟨some 0, some "sqlite", [("db_type", "sqlite")]⟩
        (some "DROP TABLE users") (fun _ => "DRIVER") =
      ("❌ SQL语句不安全或不被支持，仅允许SELECT查询", false) ∧
    containsSub "drop".data
        (pyLower "❌ SQL语句不安全或不被支持，仅允许SELECT查询".data) = false := by
  constructor
  · decide
  · decide

/-- C5 (amended): on any connected state, the query
`"DROP TABLE users"` is rejected before any driver call (the driver is
never invoked), with the fixed only-SELECT rejection message. -/
theorem C5_amended (st : DbState) (driver : String → String)
    (h : st.current_connection.isSome = true) :
    handle_query st (some "DROP TABLE users") driver =
      ("❌ SQL语句不安全或不被支持，仅允许SELECT查询", false) := by
  obtain ⟨a, ha⟩ := Option.isSome_iff_exists.mp h
  have hsql : is_safe_sql (pyStripStr "DROP TABLE users") = false := by decide
  simp [handle_query, ha, hsql]

/-- C5 (witness): the amended statement at a concrete connected
state. -/
theorem C5_wit :
    handle_query ⟨some 0, some "sqlite", []⟩ (some "DROP TABLE users") (fun _ => "") =
      ("❌ SQL语句不安全或不被支持，仅允许SELECT查询", false) :=
  C5_amended ⟨some 0, some "sqlite", []⟩ (fun _ => "") rfl

/-! ## C9: idempotent disconnect -/

/-- C9: disconnect with no active connection is a no-op returning the
informational (non-error) message and leaving the state untouched; a
second disconnect right after a first one is such a no-op, and after a
first disconnect of a live connection the state has no connection,
no database type, and empty connection info. -/
theorem C9_disconnect_idempotent :
    (∀ (st : DbState) (r : Except String Unit), st.current_connection = none →
        handle_disconnect st r = (st, "ℹ️ 当前没有活动的数据库连接")) ∧
    listStarts "❌".data "ℹ️ 当前没有活动的数据库连接".data = false ∧
    (∀ (st : DbState) (r : Except String Unit),
        handle_disconnect (handle_disconnect st (.ok ())).1 r =
          ((handle_disconnect st (.ok ())).1, "ℹ️ 当前没有活动的数据库连接")) ∧
    (∀ st : DbState,
        ((handle_disconnect st (.ok ())).1).current_connection = none ∧
        (st.current_connection.isSome = true →
          ((handle_disconnect st (.ok ())).1).connection_info = [] ∧
          ((handle_disconnect st (.ok ())).1).current_db_type = none)) := by
  refine ⟨?_, by decide, ?_, ?_⟩
  · intro st r h
    unfold handle_disconnect
    rw [h]
  · intro st r
    cases hc : st.current_connection <;> simp [handle_disconnect, hc]
  · intro st
    cases hc : st.current_connection <;> simp [handle_disconnect, hc]

/-- C9 (witness): the no-op on the empty state, and emptied connection
info after disconnecting a live concrete connection. -/
theorem C9_wit :
    handle_disconnect ⟨none, none, []⟩ (.ok ()) =
      (⟨none, none, []⟩, "ℹ️ 当前没有活动的数据库连接") ∧
    ((handle_disconnect ⟨some 1, some "sqlite", [("k", "v")]⟩ (.ok ())).1).connection_info = [] :=
  ⟨C9_disconnect_idempotent.1 ⟨none, none, []⟩ (.ok ()) rfl,
   ((C9_disconnect_idempotent.2.2.2 ⟨some 1, some "sqlite", [("k", "v")]⟩).2 rfl).1⟩

/-! ## C2: dispatch statistics -/

theorem statsUpd_statsUpd (l : List (String × ToolStats)) (k : String)
    (f g : ToolStats → ToolStats) :
    statsUpd (statsUpd l k f) k g = statsUpd l k (fun s => g (f s)) := by
  induction l with
  | nil => rfl
  | cons p rest ih =>
    simp only [statsUpd, List.map_cons, List.map_map] at *
    by_cases hp : p.1 = k <;> simp [hp, ih]

theorem statsInv_upd (l : List (String × ToolStats)) (k : String)
    (f : ToolStats → ToolStats)
    (hf : ∀ s : ToolStats, s.calls = s.successes + s.failures →
        (f s).calls = (f s).successes + (f s).failures)
    (h : ∀ p ∈ l, p.2.calls = p.2.successes + p.2.failures) :
    ∀ p ∈ statsUpd l k f, p.2.calls = p.2.successes + p.2.failures := by
  intro p hp
  rcases List.mem_map.mp hp with ⟨q, hq, rfl⟩
  by_cases hqk : q.1 = k
  · simpa [hqk] using hf q.2 (h q hq)
  · simpa [hqk] using h q hq

theorem execute_tool_statsInv (c : ToolCollection) (tool_name : String)
    (args : ToolArgs) (elapsed : ℚ) (h : StatsInv c) :
    StatsInv (execute_tool c tool_name args elapsed).1 := by
  unfold StatsInv at *
  unfold execute_tool
  cases hget : alistGet? c.tools tool_name with
  | none => exact h
  | some tool =>
    split
    · exact h
    · rename_i tool' heq
      injection heq with heq'
      subst heq'
      split
      · simp only [statsUpd_statsUpd]
        exact statsInv_upd _ _ _ (fun s hs => by simp; omega) h
      · simp only [statsUpd_statsUpd]
        exact statsInv_upd _ _ _ (fun s hs => by simp; omega) h
      · split
        · simp only [statsUpd_statsUpd]
          exact statsInv_upd _ _ _ (fun s hs => by simp; omega) h
        · simp only [statsUpd_statsUpd]
          exact statsInv_upd _ _ _ (fun s hs => by simp; omega) h

theorem dispatchSeq_statsInv (reqs : List DispatchReq) (c : ToolCollection)
    (h : StatsInv c) : StatsInv (dispatchSeq c reqs) := by
  induction reqs generalizing c with
  | nil => exact h
  | cons r rest ih =>
    exact ih _ (execute_tool_statsInv c r.tool_name r.args r.elapsed h)

/-- C2: after any sequence of dispatches through `execute_tool`,
every tool's statistics satisfy `calls = successes + failures`; and a
dispatch naming an unregistered tool leaves the collection — tools and
all statistics entries — completely unchanged while returning the
not-found result. -/
theorem C2_stats_invariant :
    (∀ (c : ToolCollection) (reqs : List DispatchReq),
        StatsInv c → StatsInv (dispatchSeq c reqs)) ∧
    (∀ (c : ToolCollection) (tool_name : String) (args : ToolArgs) (elapsed : ℚ),
        alistGet? c.tools tool_name = none →
        execute_tool c tool_name args elapsed = (c, "❌ 未找到工具: " ++ tool_name)) := by
  constructor
  · exact fun c reqs h => dispatchSeq_statsInv reqs c h
  · intro c tool_name args elapsed hget
    unfold execute_tool
    rw [hget]

/-- C2 (witness): a fresh collection with one registered tool, taken
through a successful dispatch, a validation failure, a raising
execution, and a dispatch to an unknown name. -/
theorem C2_wit :
    StatsInv (dispatchSeq (add_tool ⟨[], []⟩ ⟨"calc", fun _ => .ok true, fun _ => .ok "4"⟩)
      [⟨"calc", [("expression", "2+2")], 1⟩, ⟨"calc", [], 0⟩, ⟨"nope", [], 0⟩]) ∧
    execute_tool (add_tool ⟨[], []⟩ ⟨"calc", fun _ => .ok true, fun _ => .ok "4"⟩)
        "nope" [] 0 =
      (add_tool ⟨[], []⟩ ⟨"calc", fun _ => .ok true, fun _ => .ok "4"⟩,
       "❌ 未找到工具: nope") :=
  by
  refine ⟨C2_stats_invariant.1 _ _ ?_, C2_stats_invariant.2 _ _ _ _ rfl⟩
  intro p hp
  simp [add_tool, alistSet] at hp
  simp [hp, ToolStats.init]

/-! ## C3 and C6: the orchestrator loop -/

theorem execute_plan_from_budget (tools : List (String × ToolModel)) (m : Nat) :
    ∀ (steps : List PlanStep) (cur idx : Nat), cur ≤ m →
      (execute_plan_from tools m cur idx steps).1 ≤ m := by
  intro steps
  induction steps with
  | nil => intro cur idx hcur; exact hcur
  | cons st rest ih =>
    intro cur idx hcur
    by_cases hc : m ≤ cur
    · simp [execute_plan_from, hc]
      exact hcur
    · simp only [execute_plan_from, if_neg hc]
      exact ih (cur + 1) (idx + 1) (by omega)

/-- C3: a fresh agent (`current_step = 0`) never drives its executed
step counter past the configured budget, whatever the plan length; and
in the concrete scenario (budget 2, three steps) the transcript is
exactly the two executed-step lines followed by one budget-exceeded
notice, while the dispatch trace covers only the first two steps — the
result does not depend on the third step at all, so its tool is never
invoked. -/
theorem C3_step_budget :
    (∀ (tools : List (String × ToolModel)) (max_steps : Nat) (steps : List PlanStep),
        (execute_plan_from tools max_steps 0 0 steps).1 ≤ max_steps) ∧
    (∀ (tools : List (String × ToolModel)) (s1 s2 s3 : PlanStep),
        execute_plan_from tools 2 0 0 [s1, s2, s3] =
          (2, ["步骤1: " ++ (execute_step tools s1).1,
               "步骤2: " ++ (execute_step tools s2).1,
               "⚠️ 达到最大执行步数限制"],
           (execute_step tools s1).2 ++ (execute_step tools s2).2)) := by
  constructor
  · intro tools max_steps steps
    exact execute_plan_from_budget tools max_steps steps 0 0 (Nat.zero_le _)
  · intro tools s1 s2 s3
    simp [execute_plan_from]
    exact ⟨rfl, rfl⟩

/-- C6: full characterization of the loop — every step inside the
remaining budget contributes exactly one transcript line (whatever its
outcome: missing tool name, unresolved tool, execution fault, or
success) and is dispatched even when earlier steps failed; steps beyond
the budget contribute nothing but the single budget notice.  In
particular no step-level failure aborts the remaining steps: only
budget exhaustion halts early. -/
theorem C6_step_failures_isolated (tools : List (String × ToolModel)) (m : Nat) :
    ∀ (steps : List PlanStep) (cur idx : Nat),
      (execute_plan_from tools m cur idx steps).2.1 =
        (((steps.take (m - cur)).enumFrom idx).map
          (fun p => "步骤" ++ toString (p.1 + 1) ++ ": " ++ (execute_step tools p.2).1))
        ++ (if m - cur < steps.length then ["⚠️ 达到最大执行步数限制"] else []) ∧
      (execute_plan_from tools m cur idx steps).2.2 =
        ((steps.take (m - cur)).map (fun st => (execute_step tools st).2)).flatten := by
  intro steps
  induction steps with
  | nil => intro cur idx; simp [execute_plan_from]
  | cons st rest ih =>
    intro cur idx
    by_cases hc : m ≤ cur
    · have h0 : m - cur = 0 := Nat.sub_eq_zero_of_le hc
      simp [execute_plan_from, hc, h0]
    · have h1 : m - cur = (m - (cur + 1)) + 1 := by omega
      have h2 : ((m - (cur + 1)) + 1 < rest.length + 1) = (m - (cur + 1) < rest.length) := by
        simp only [eq_iff_iff]; omega
      constructor
      · simp only [execute_plan_from, if_neg hc, h1, List.take_succ_cons,
          List.enumFrom, List.map_cons, List.length_cons, h2]
        rw [(ih (cur + 1) (idx + 1)).1]
        simp
      · simp only [execute_plan_from, if_neg hc, h1, List.take_succ_cons,
          List.map_cons, List.flatten]
        rw [(ih (cur + 1) (idx + 1)).2]

/-! ## C7, C8, C10: result formatting -/

theorem mem_natDigsAux_lt (fuel : Nat) : ∀ n d, d ∈ natDigsAux fuel n → d < 10 := by
  induction fuel with
  | zero => intro n d h; simp [natDigsAux] at h
  | succ f ih =>
    intro n d h
    simp only [natDigsAux] at h
    split at h
    · simp at h
    · rcases List.mem_cons.mp h with rfl | h
      · exact Nat.mod_lt _ (by omega)
      · exact ih _ _ h

theorem digitChar_ne (d : Nat) (h : d < 10) :
    digitChar d ≠ '.' ∧ digitChar d ≠ 'e' := by
  interval_cases d <;> exact ⟨by decide, by decide⟩

theorem dot_not_mem_natRepr (n : Nat) : '.' ∉ (natRepr n).data := by
  unfold natRepr
  split
  · decide
  · intro h
    rcases List.mem_map.mp (by simpa [natDigs] using h) with ⟨d, hd, hdc⟩
    exact (digitChar_ne d (mem_natDigsAux_lt n n d hd)).1 hdc

theorem dot_not_mem_intRepr (n : Int) : '.' ∉ (intRepr n).data := by
  unfold intRepr
  split
  · intro h
    exact dot_not_mem_natRepr _ (by simpa using h)
  · exact dot_not_mem_natRepr _

/-- C7: whenever the computed value is integral — an `int`, a `bool`,
or a `float` with integral value — the rendered result has no decimal
point, whatever precision is requested; and concretely `sqrt(16) + 2`
evaluates to the float `6.0` and renders as `6`. -/
theorem C7_integral_no_dot :
    (∀ (v : PyNum) (p : Option Nat),
        (v.isInstInt || (v.isInstFloat && float_is_integer v.toQ)) = true →
        '.' ∉ (format_result v p).data) ∧
    (eval_node 9 sqrt16plus2 = .ok (.num (.floatV 6)) ∧
     calc_render "sqrt(16) + 2" (format_result (.floatV 6) none) =
       "计算结果: sqrt(16) + 2 = 6") := by
  refine ⟨?_, by rfl, by rfl⟩
  intro v p h
  have hfmt : format_result v p = intRepr v.toInt := by
    simp [format_result, h]
  rw [hfmt]
  exact dot_not_mem_intRepr _

/-- C7 (witness): the general statement at the integral float `42.0`
with an explicit precision request. -/
theorem C7_wit : '.' ∉ (format_result (.floatV 42) (some 3)).data :=
  C7_integral_no_dot.1 (.floatV 42) (some 3) (by decide)

theorem e_mem_mid (a b : String) : 'e' ∈ (a ++ ("e" ++ b)).data := by
  simp only [String.data_append, List.mem_append]
  right; left
  decide

theorem e_mem_formatSci (q : ℚ) : 'e' ∈ (formatSci q).data := by
  unfold formatSci
  split
  · decide
  · exact e_mem_mid _ _

/-- C8 (counterexample): the integral float `2048.0` has magnitude at
least 1000 yet renders (with no explicit precision) as the plain
integer string `2048` — no exponent marker, no decimal point — because
the integral branch of `_format_result` fires before the
scientific-notation branch. -/
theorem C8_cex :
    (1000 : ℚ) ≤ |(2048 : ℚ)| ∧
    format_result (.floatV 2048) none = "2048" ∧
    'e' ∉ "2048".data ∧ '.' ∉ "2048".data := by
  refine ⟨by norm_num, by decide, by decide, by decide⟩

/-- C8 (amended): every non-integral float result with magnitude at
least 1000 renders, when no explicit precision is requested, in
scientific notation (the `%.2e` rendering, which always carries the
exponent marker `e`). -/
theorem C8_large_scientific (q : ℚ) (h1 : float_is_integer q = false)
    (h2 : (1000 : ℚ) ≤ |q|) :
    format_result (.floatV q) none = formatSci q ∧ 'e' ∈ (formatSci q).data := by
  constructor
  · simp only [format_result, PyNum.isInstInt, PyNum.isInstFloat, PyNum.toQ, h1]
    simp [h2]
  · exact e_mem_formatSci q

/-- C8 (witness): the amended statement at `1234.5`. -/
theorem C8_wit :
    format_result (.floatV (Rat.divInt 2469 2)) none = formatSci (Rat.divInt 2469 2) ∧
    'e' ∈ (formatSci (Rat.divInt 2469 2)).data :=
  C8_large_scientific (Rat.divInt 2469 2) (by decide) (by decide)

theorem bind_ok_inv {α β : Type} {x : Except String α} {f : α → Except String β} {b : β}
    (h : (do let a ← x; f a) = Except.ok b) : ∃ a, x = .ok a ∧ f a = .ok b := by
  cases x with
  | error e => exact Except.noConfusion h
  | ok a => exact ⟨a, rfl, h⟩

theorem compareChain_ok_bool (f : PyExpr → Except String PyVal)
    (cmps : List (CmpOpKind × PyExpr)) :
    ∀ (lv : PyVal) (v : PyVal), compareChain f lv cmps = .ok v →
      ∃ b, v = .num (.boolV b) := by
  induction cmps with
  | nil =>
    intro lv v h
    simp only [compareChain] at h
    exact ⟨true, (Except.ok.injEq _ _ ▸ h).symm⟩
  | cons hd rest ih =>
    intro lv v h
    obtain ⟨op, ce⟩ := hd
    simp only [compareChain] at h
    obtain ⟨rv, hfc, h2⟩ := bind_ok_inv h
    cases lv with
    | func fn => simp at h2
    | num a =>
      cases rv with
      | func fn => simp at h2
      | num b =>
        simp only at h2
        split at h2
        · exact ih (.num b) v h2
        · exact ⟨false, (Except.ok.injEq _ _ ▸ h2).symm⟩

/-- C10: a successfully evaluated comparison chain always produces a
Python `bool`; a `bool` result is rendered by the integral branch of
`_format_result` — as `1` or `0`, never as `True` or `False`, whatever
precision is requested (the `bool` branch is unreachable) — and
concretely `1 < 2` evaluates to `True` and renders as `1`. -/
theorem C10_bool_renders_as_int :
    (∀ (fuel : Nat) (l : PyExpr) (cmps : List (CmpOpKind × PyExpr)) (v : PyVal),
        eval_node fuel (.compare l cmps) = .ok v → ∃ b, v = .num (.boolV b)) ∧
    (∀ (b : Bool) (p : Option Nat),
        format_result (.boolV b) p = (if b then "1" else "0") ∧
        format_result (.boolV b) p ≠ "True" ∧
        format_result (.boolV b) p ≠ "False") ∧
    (eval_node 9 oneLtTwo = .ok (.num (.boolV true)) ∧
     calc_render "1 < 2" (format_result (.boolV true) none) = "计算结果: 1 < 2 = 1") := by
  refine ⟨?_, ?_, by rfl, by rfl⟩
  · intro fuel l cmps v h
    cases fuel with
    | zero => simp [eval_node] at h
    | succ f =>
      simp only [eval_node] at h
      obtain ⟨lv, hl, h2⟩ := bind_ok_inv h
      exact compareChain_ok_bool (eval_node f) cmps lv v h2
  · intro b p
    cases b
    · refine ⟨rfl, ?_, ?_⟩
      · show ("0" : String) ≠ "True"; decide
      · show ("0" : String) ≠ "False"; decide
    · refine ⟨rfl, ?_, ?_⟩
      · show ("1" : String) ≠ "True"; decide
      · show ("1" : String) ≠ "False"; decide

/-- C10 (witness): the bool-production statement applied to the
concrete chain `1 < 2`. -/
theorem C10_wit :
    ∃ b, PyVal.num (.boolV true) = .num (.boolV b) :=
  C10_bool_renders_as_int.1 2 (.const (.intV 1)) [(.lt, .const (.intV 2))]
    (.num (.boolV true)) (by rfl)

end MiniManus
